import Mathlib

/-!
Verification of the try-catch Result library.

The development shallowly embeds the two TypeScript sources of the
repository: the basic module (src/unnamed/part_002) and the extended
module (src/src/index.ts). JavaScript runtime values are modelled by
the inductive type JSVal; a Result is a JSVal object carrying a data
key or an error key, exactly as the sources build and discriminate
them by key presence. A computation that may throw is modelled by
Except JSVal (Except.error is a synchronous throw of an arbitrary
value); a promise is modelled by its settlement, also Except JSVal
(Except.ok is resolution, Except.error is rejection).
-/

namespace TC

/-- JavaScript runtime values, as far as the library inspects them:
the two absent-of-value markers (undefined and null), primitives, and
objects as lists of key and value pairs. -/
inductive JSVal where
  | undefined
  | null
  | bool (b : Bool)
  | num (n : Int)
  | str (s : String)
  | obj (fields : List (String × JSVal))

/-- Settlement of a promise: resolution with a value (Except.ok) or
rejection with an arbitrary value (Except.error). -/
abbrev Settle := Except JSVal JSVal

/-- A value that is either a plain value or a promise, modelling the
MaybePromise type of both sources. -/
inductive MaybeProm where
  | plain (v : JSVal)
  | prom (p : Settle)

/-- Invocation of a zero-argument operation: it either throws
synchronously (Except.error) or returns a plain value or a promise. -/
abbrev Op := Except JSVal MaybeProm

/-- The runtime argument accepted by the tryCatch dispatchers of both
sources: an already-in-flight promise, or a zero-argument operation.
The dispatchers branch on typeof arg, which this sum makes explicit. -/
inductive TCArg where
  | prom (p : Settle)
  | fn (f : Op)

/-- Key presence test on a JS object, modelling the in operator as the
sources use it on Result values. -/
def hasKey (k : String) : JSVal → Bool
  | .obj fields => fields.any (fun pr => pr.1 == k)
  | _ => false

/-- Property access, yielding undefined when the key is absent, as in
JavaScript. -/
def getKey (k : String) : JSVal → JSVal
  | .obj fields => ((fields.find? (fun pr => pr.1 == k)).map (fun pr => pr.2)).getD .undefined
  | _ => .undefined

/-- Constructor success of both sources: builds the object with the
single key data holding the payload. -/
def success (data : JSVal) : JSVal := .obj [("data", data)]

/-- Constructor failure of both sources: builds the object with the
single key error holding the error value. -/
def failure (error : JSVal) : JSVal := .obj [("error", error)]

/-- Type guard isSuccess of both sources: tests presence of the data
key. -/
def isSuccess (result : JSVal) : Bool := hasKey "data" result

/-- Type guard isError of both sources: tests presence of the error
key. -/
def isError (result : JSVal) : Bool := hasKey "error" result

/-- Combinator map of src/unnamed/part_002 (lines 89 to 91): on a
success, apply fn to the payload and rewrap with success; on anything
else return the result unchanged. fn may itself throw, which map does
not catch: the throw propagates, hence the Except codomain. -/
def map (result : JSVal) (fn : JSVal → Except JSVal JSVal) : Except JSVal JSVal :=
  if isSuccess result then
    match fn (getKey "data" result) with
    | .ok u => .ok (success u)
    | .error x => .error x
  else .ok result

/-- Combinator flatMap of src/unnamed/part_002 (lines 104 to 106): on
a success, return fn applied to the payload directly; otherwise return
the result unchanged. fn returns a Result and may throw, hence the
Except codomain. -/
def flatMap (result : JSVal) (fn : JSVal → Except JSVal JSVal) : Except JSVal JSVal :=
  if isSuccess result then fn (getKey "data" result) else .ok result

/-- Wrapper tryCatchSync of src/unnamed/part_002 (lines 200 to 207):
run the operation; a normal return becomes success, a throw becomes
failure, the payload passed through unchanged in both cases. The
argument models the outcome of invoking the zero-argument operation. -/
def tryCatchSync (fn : Except JSVal JSVal) : JSVal :=
  match fn with
  | .ok v => success v
  | .error x => failure x

/-- Conversion of a promise settlement into the Result the promise
chain then(success).catch(failure) resolves with. -/
def settleToResult : Settle → JSVal
  | .ok v => success v
  | .error e => failure e

/-- Awaiting a MaybePromise: a plain value resolves with itself, a
promise contributes its own settlement. -/
def awaitMP : MaybeProm → Settle
  | .plain v => .ok v
  | .prom p => p

/-- Overall settlement obtained by invoking and awaiting the argument,
as the try block of tryCatchAsync does: a synchronous throw while
starting the operation and a rejection both surface as Except.error. -/
def settleOf : TCArg → Settle
  | .prom p => p
  | .fn (.error x) => .error x
  | .fn (.ok mp) => awaitMP mp

/-- Return shape of the basic dispatcher: a plain Result returned
synchronously, or a deferred handle whose settlement is given. -/
inductive TCReturn where
  | plain (r : JSVal)
  | deferred (p : Settle)

/-- Wrapper tryCatchAsync of src/unnamed/part_002 (lines 222 to 231):
an async function, hence always a deferred handle; every throw or
rejection is caught and becomes failure, so the handle always resolves
with a Result. -/
def tryCatchAsync (arg : TCArg) : TCReturn :=
  .deferred (.ok (settleToResult (settleOf arg)))

/-- Basic unified dispatcher tryCatch of src/unnamed/part_002 (lines
169 to 187). A promise argument is chained with then(success) and
catch(failure), yielding a deferred Result. A function argument is
invoked inside try: a returned promise is chained the same way; a
plain return yields a plain success; a synchronous throw yields a
plain failure. -/
def tryCatch : TCArg → TCReturn
  | .fn (.error e) => .plain (failure e)
  | .fn (.ok (.plain v)) => .plain (success v)
  | .fn (.ok (.prom p)) => .deferred (.ok (settleToResult p))
  | .prom p => .deferred (.ok (settleToResult p))

/-- The handler argument of the extended dispatcher: omitted, a
side-effect callback, or the rethrow sentinel (the string throw). -/
inductive Handler where
  | absent
  | cb
  | rethrow
deriving DecidableEq

/-- Side effects observed once everything has settled: the error
values the handler callback was invoked with, in order, and the number
of times the cleanup callback ran. -/
structure Effects where
  handlerCalls : List JSVal
  cleanupCalls : Nat

/-- Number of cleanup invocations a single reached cleanup call site
performs: one when a cleanup callback was supplied, zero otherwise. -/
def cleanupRuns (cleanup : Bool) : Nat := if cleanup then 1 else 0

/-- Outcome of the extended dispatcher: a synchronous throw escaping
to the caller, a plain Result, or a deferred handle (which the rethrow
sentinel can leave rejected). -/
inductive ExTCOut where
  | thrown (x : JSVal)
  | plain (r : JSVal)
  | deferred (p : Settle)

/-- Extended dispatcher tryCatch of src/src/index.ts (lines 182 to
219), with its side effects made explicit. The cleanup argument
records whether a cleanup callback was supplied.

Function argument returning a promise: the chain then catch finally
resolves with success on resolution; on rejection the catch callback
rethrows under the sentinel (leaving the handle rejected), or invokes
the handler callback and resolves with failure; finally runs cleanup
in every one of these cases.

Function argument returning a plain value: a plain success, cleanup
invoked before returning.

Function argument throwing synchronously (the catch block, lines 203
to 208): under the sentinel the error is rethrown at once and the
cleanup call site below the throw statement is never reached, so
cleanup runs zero times; otherwise the handler callback runs if
supplied, then cleanup, then a plain failure is returned.

Promise argument: same chain as the first case. -/
def exTryCatch (arg : TCArg) (handler : Handler) (cleanup : Bool) : ExTCOut × Effects :=
  match arg with
  | .fn f =>
      match f with
      | .ok (.prom p) =>
          match p, handler with
          | .ok v, _ => (.deferred (.ok (success v)), ⟨[], cleanupRuns cleanup⟩)
          | .error e, .rethrow => (.deferred (.error e), ⟨[], cleanupRuns cleanup⟩)
          | .error e, .cb => (.deferred (.ok (failure e)), ⟨[e], cleanupRuns cleanup⟩)
          | .error e, .absent => (.deferred (.ok (failure e)), ⟨[], cleanupRuns cleanup⟩)
      | .ok (.plain v) => (.plain (success v), ⟨[], cleanupRuns cleanup⟩)
      | .error e =>
          match handler with
          | .rethrow => (.thrown e, ⟨[], 0⟩)
          | .cb => (.plain (failure e), ⟨[e], cleanupRuns cleanup⟩)
          | .absent => (.plain (failure e), ⟨[], cleanupRuns cleanup⟩)
  | .prom p =>
      match p, handler with
      | .ok v, _ => (.deferred (.ok (success v)), ⟨[], cleanupRuns cleanup⟩)
      | .error e, .rethrow => (.deferred (.error e), ⟨[], cleanupRuns cleanup⟩)
      | .error e, .cb => (.deferred (.ok (failure e)), ⟨[e], cleanupRuns cleanup⟩)
      | .error e, .absent => (.deferred (.ok (failure e)), ⟨[], cleanupRuns cleanup⟩)

/-- Injection of the basic dispatcher return shape into the extended
outcome type, for comparing the two dispatchers. -/
def toExOut : TCReturn → ExTCOut
  | .plain r => .plain r
  | .deferred p => .deferred p

/-- The typeof operator yields the string object exactly on objects
and on null. -/
def jsTypeofObject : JSVal → Bool
  | .obj _ => true
  | .null => true
  | _ => false

/-- Strict equality comparison with null. -/
def isNull : JSVal → Bool
  | .null => true
  | _ => false

/-- The runtime classification chain performs on its input (src/src/
index.ts line 249): typeof input is object, input is not null, and
input carries a data key or an error key. -/
def isResultLike (input : JSVal) : Bool :=
  jsTypeofObject input && !(isNull input) && (hasKey "data" input || hasKey "error" input)

/-- The loop of chain (src/src/index.ts lines 255 to 262): before each
operation, return the current Result as is when it is an error;
otherwise feed its data field to the operation. -/
def chainGo : JSVal → List (JSVal → JSVal) → JSVal
  | current, [] => current
  | current, operation :: rest =>
      if isError current then current
      else chainGo (operation (getKey "data" current)) rest

/-- Helper chain of src/src/index.ts (lines 242 to 263): classify the
input, wrapping a raw value with success, then run the loop. -/
def chain (input : JSVal) (operations : List (JSVal → JSVal)) : JSVal :=
  chainGo (if isResultLike input then input else success input) operations

/-- Well-formed Results: the values built by success or failure, which
is what the constructors and every execution wrapper produce. -/
def WellFormed (r : JSVal) : Prop :=
  (∃ v, r = success v) ∨ (∃ e, r = failure e)

theorem map_on_success (v : JSVal) (fn : JSVal → Except JSVal JSVal) :
    map (success v) fn =
      match fn v with
      | .ok u => .ok (success u)
      | .error x => .error x := rfl

/-- C1: tryCatchSync wraps a normal return, any value v included, as a
Success carrying exactly v, and wraps any thrown value x as a Failure
carrying exactly x, with no rewrapping of either payload. -/
theorem tryCatchSync_exact :
    (∀ v : JSVal, tryCatchSync (.ok v) = success v) ∧
    (∀ x : JSVal, tryCatchSync (.error x) = failure x) :=
  ⟨fun _ => rfl, fun _ => rfl⟩

/-- C2: evaluation of the extended dispatcher at the failing input: a
synchronous operation that throws the string boom, the rethrow
sentinel as handler, and a cleanup callback supplied. The thrown value
propagates to the caller but the cleanup callback runs zero times, not
once, because the sync catch block rethrows before reaching its
cleanup call site. -/
theorem sync_rethrow_skips_cleanup :
    exTryCatch (.fn (.error (.str "boom"))) .rethrow true
      = (.thrown (.str "boom"), ⟨[], 0⟩) := rfl

/-- C3: a raw input the classification does not recognize as a Result
is first wrapped via success; the loop feeds each success payload to
the next operation in sequence; and from the first error Result the
loop returns that exact value unchanged, whatever operations remain. -/
theorem chain_wraps_and_short_circuits :
    (∀ (input : JSVal) (ops : List (JSVal → JSVal)),
      isResultLike input = false → chain input ops = chainGo (success input) ops) ∧
    (∀ (v : JSVal) (op : JSVal → JSVal) (ops : List (JSVal → JSVal)),
      chainGo (success v) (op :: ops) = chainGo (op v) ops) ∧
    (∀ (r : JSVal) (ops : List (JSVal → JSVal)),
      isError r = true → chainGo r ops = r) := by
  refine ⟨fun input ops h => ?_, fun v op ops => rfl, fun r ops h => ?_⟩
  · simp [chain, h]
  · cases ops with
    | nil => rfl
    | cons op rest => simp [chainGo, h]

/-- C3 witness: the three parts of the chain theorem instantiated at
concrete inputs. -/
theorem chain_wraps_and_short_circuits_witness :
    chain (.num 5) [] = chainGo (success (.num 5)) [] ∧
    chainGo (success (.num 1)) [fun w => success w] =
      chainGo ((fun w => success w) (.num 1)) [] ∧
    chainGo (failure (.num 404)) [fun w => success w] = failure (.num 404) :=
  ⟨chain_wraps_and_short_circuits.1 (.num 5) [] rfl,
   chain_wraps_and_short_circuits.2.1 (.num 1) (fun w => success w) [],
   chain_wraps_and_short_circuits.2.2 (failure (.num 404)) [fun w => success w] rfl⟩

/-- C4: tryCatchAsync always yields a deferred handle that resolves
with a Result, never a plain Result and never a rejected handle; the
Result is success of the settled value on resolution and failure of
the rejected value on rejection; and a synchronous throw raised while
starting the operation yields exactly what the same value as an
asynchronous rejection yields. -/
theorem tryCatchAsync_always_deferred :
    (∀ arg : TCArg, ∃ r, tryCatchAsync arg = .deferred (.ok r)) ∧
    (∀ (arg : TCArg) (v : JSVal),
      settleOf arg = .ok v → tryCatchAsync arg = .deferred (.ok (success v))) ∧
    (∀ (arg : TCArg) (x : JSVal),
      settleOf arg = .error x → tryCatchAsync arg = .deferred (.ok (failure x))) ∧
    (∀ x : JSVal, tryCatchAsync (.fn (.error x)) = tryCatchAsync (.prom (.error x))) := by
  refine ⟨fun arg => ⟨settleToResult (settleOf arg), rfl⟩,
    fun arg v h => ?_, fun arg x h => ?_, fun x => rfl⟩ <;>
    simp [tryCatchAsync, h, settleToResult]

/-- C4 witness: tryCatchAsync on a promise resolving with 42 and on a
promise rejecting with the string x. -/
theorem tryCatchAsync_always_deferred_witness :
    tryCatchAsync (.prom (.ok (.num 42))) = .deferred (.ok (success (.num 42))) ∧
    tryCatchAsync (.prom (.error (.str "x"))) = .deferred (.ok (failure (.str "x"))) :=
  ⟨tryCatchAsync_always_deferred.2.1 (.prom (.ok (.num 42))) (.num 42) rfl,
   tryCatchAsync_always_deferred.2.2.1 (.prom (.error (.str "x"))) (.str "x") rfl⟩

/-- C5: when invoking the operation throws synchronously, the basic
unified dispatcher yields failure of the thrown value as a plain,
non-deferred Result; so does the extended dispatcher whenever the
handler is not the rethrow sentinel, which is the explicit opt-out
from producing a Failure. -/
theorem tryCatch_sync_throw_plain_failure :
    (∀ x : JSVal, tryCatch (.fn (.error x)) = .plain (failure x)) ∧
    (∀ (x : JSVal) (h : Handler) (c : Bool),
      h ≠ Handler.rethrow → (exTryCatch (.fn (.error x)) h c).1 = .plain (failure x)) := by
  refine ⟨fun x => rfl, fun x h c hne => ?_⟩
  cases h with
  | absent => rfl
  | cb => rfl
  | rethrow => exact absurd rfl hne

/-- C5 witness: the extended dispatcher with no handler and no cleanup
on an operation throwing the string boom. -/
theorem tryCatch_sync_throw_plain_failure_witness :
    (exTryCatch (.fn (.error (.str "boom"))) .absent false).1
      = .plain (failure (.str "boom")) :=
  tryCatch_sync_throw_plain_failure.2 (.str "boom") .absent false (by decide)

/-- C6: on every well-formed Result, exactly one of isSuccess and
isError returns true, never both and never neither; this covers
success payloads that are absent-of-value markers, since the data key
is present even then. -/
theorem guards_exclusive_exhaustive (r : JSVal) (h : WellFormed r) :
    (isSuccess r = true ∧ isError r = false) ∨
    (isSuccess r = false ∧ isError r = true) := by
  rcases h with ⟨v, rfl⟩ | ⟨e, rfl⟩
  · exact Or.inl ⟨rfl, rfl⟩
  · exact Or.inr ⟨rfl, rfl⟩

/-- C6 witness: the guards on a success whose payload is null. -/
theorem guards_exclusive_exhaustive_witness :
    (isSuccess (success .null) = true ∧ isError (success .null) = false) ∨
    (isSuccess (success .null) = false ∧ isError (success .null) = true) :=
  guards_exclusive_exhaustive (success .null) (Or.inl ⟨.null, rfl⟩)

/-- C7: map on a Failure returns that exact Failure for every fn, so
fn is never consulted; map on a success applies fn and rewraps a
normal return with success; and a throw inside fn propagates out of
map uncaught. -/
theorem map_failure_identity_success_fn :
    (∀ (e : JSVal) (fn : JSVal → Except JSVal JSVal),
      map (failure e) fn = .ok (failure e)) ∧
    (∀ (v u : JSVal) (fn : JSVal → Except JSVal JSVal),
      fn v = .ok u → map (success v) fn = .ok (success u)) ∧
    (∀ (v x : JSVal) (fn : JSVal → Except JSVal JSVal),
      fn v = .error x → map (success v) fn = .error x) := by
  refine ⟨fun e fn => rfl, fun v u fn h => ?_, fun v x fn h => ?_⟩ <;>
    rw [map_on_success, h]

/-- C7 witness: map on success of 1 with the identity operation and
with an operation that throws the string t. -/
theorem map_failure_identity_success_fn_witness :
    map (success (.num 1)) (fun w => .ok w) = .ok (success (.num 1)) ∧
    map (success (.num 1)) (fun _ => .error (.str "t")) = .error (.str "t") :=
  ⟨map_failure_identity_success_fn.2.1 (.num 1) (.num 1) (fun w => .ok w) rfl,
   map_failure_identity_success_fn.2.2 (.num 1) (.str "t") (fun _ => .error (.str "t")) rfl⟩

/-- C8: flatMap on success of v returns fn applied to v directly, with
no extra wrapping; flatMap on failure of e returns that failure, and
its value does not depend on fn at all, so fn is never consulted. -/
theorem flatMap_bind_laws :
    (∀ (v : JSVal) (fn : JSVal → Except JSVal JSVal),
      flatMap (success v) fn = fn v) ∧
    (∀ (e : JSVal) (fn : JSVal → Except JSVal JSVal),
      flatMap (failure e) fn = .ok (failure e)) ∧
    (∀ (e : JSVal) (fn gn : JSVal → Except JSVal JSVal),
      flatMap (failure e) fn = flatMap (failure e) gn) :=
  ⟨fun _ _ => rfl, fun _ _ => rfl, fun _ _ _ => rfl⟩

/-- C9: with the handler and cleanup arguments omitted, the extended
dispatcher agrees with the basic one on every argument, promise or
zero-argument operation: the same plain or deferred Result, and no
side effects. -/
theorem basic_extended_tryCatch_agree :
    ∀ arg : TCArg, exTryCatch arg .absent false = (toExOut (tryCatch arg), ⟨[], 0⟩) := by
  intro arg
  rcases arg with p | f
  · rcases p with e | v <;> rfl
  · rcases f with e | mp
    · rfl
    · rcases mp with v | q
      · rfl
      · rcases q with e | v <;> rfl

/-- C10: chain with no operations is the identity on its classified
input: an input the classification recognizes as a Result comes back
unchanged, and any other value v comes back as success of v. -/
theorem chain_empty_identity :
    (∀ input : JSVal, isResultLike input = true → chain input [] = input) ∧
    (∀ input : JSVal, isResultLike input = false → chain input [] = success input) := by
  refine ⟨fun input h => ?_, fun input h => ?_⟩ <;> simp [chain, chainGo, h]

/-- C10 witness: chain with no operations on a Result input and on a
raw number. -/
theorem chain_empty_identity_witness :
    chain (success .null) [] = success .null ∧
    chain (.num 7) [] = success (.num 7) :=
  ⟨chain_empty_identity.1 (success .null) rfl,
   chain_empty_identity.2 (.num 7) rfl⟩

end TC
